import Mathlib

set_option maxHeartbeats 1000000

/-!
Shallow embedding of `src/deps/v8/src/compiler/js-heap-broker.cc`:
the JSHeapBroker identity cache, ObjectData record model, Ref facade,
and the fast-literal eligibility analysis (`IsFastLiteralHelper`).
-/

namespace JsHeapBrokerModel

/-! ## Fast-literal boilerplate object model

`IsFastLiteralHelper` walks a literal boilerplate's object graph.  The
embedding captures exactly the observations the source makes on the live
objects: migratability (`JSObject::TryMigrateInstance`), the elements store
(its kind, length, copy-on-write map, raw size) and the in-object property
descriptors (location, unboxed-double slots, object-valued data fields).
-/

mutual

/-- A boilerplate `JSObject` as observed by `IsFastLiteralHelper`:
`TryMigrateInstance` outcome, the elements store, `HasFastProperties`,
`property_array()->length()`, and the own descriptors. -/
inductive JSObjectB : Type where
  | mk (canMigrate : Bool) (elements : ElementsB) (hasFastProperties : Bool)
      (propertyArrayLength : Nat) (descriptors : DescList)

/-- The elements store of a boilerplate object: its elements kind
(`HasSmiOrObjectElements` / `HasDoubleElements` / anything else), whether its
map is the read-only `fixed_cow_array_map`, its length, and for double
elements the raw storage `Size()`. -/
inductive ElementsB : Type where
  | smiOrObject (cow : Bool) (elems : ElemList)
  | doubles (cow : Bool) (len : Nat) (size : Int)
  | other (cow : Bool) (len : Nat)

/-- Elements of a smi-or-object backing store: each slot either holds a
`JSObject` (recursed into) or some non-object value. -/
inductive ElemList : Type where
  | nil
  | consObj (v : JSObjectB) (rest : ElemList)
  | consPlain (rest : ElemList)

/-- The own descriptors of a boilerplate object, in descriptor order: a
non-field descriptor (`details.location() != kField`, skipped), an
unboxed-double data field, a data field holding a non-object, or a data
field holding a `JSObject` (recursed into). -/
inductive DescList : Type where
  | nil
  | consNonField (rest : DescList)
  | consUnboxedDouble (rest : DescList)
  | consPlainData (rest : DescList)
  | consObjData (v : JSObjectB) (rest : DescList)

end

/-- Length of a smi-or-object elements list. -/
def ElemList.length : ElemList → Nat
  | .nil => 0
  | .consObj _ rest => rest.length + 1
  | .consPlain rest => rest.length + 1

/-- Whether the elements store's map is the shared `fixed_cow_array_map`. -/
def ElementsB.isCow : ElementsB → Bool
  | .smiOrObject c _ => c
  | .doubles c _ _ => c
  | .other c _ => c

/-- `elements->length()`. -/
def ElementsB.length : ElementsB → Nat
  | .smiOrObject _ es => es.length
  | .doubles _ len _ => len
  | .other _ len => len

/-- `kMaxFastLiteralDepth` (source line 622). -/
def kMaxFastLiteralDepth : Nat := 3

/-- Modelled from the spec: `kMaxFastLiteralProperties` is
`JSObject::kMaxInObjectProperties`, the maximum number of in-object
properties; its numeric value lives in a header that is not part of the
source here. -/
def kMaxFastLiteralProperties : Nat := 252

/-- Modelled from the spec: the fixed size ceiling for raw numeric element
storage (`kMaxRegularHeapObjectSize`); its numeric value lives in a header
that is not part of the source here. -/
def kMaxRegularHeapObjectSize : Int := 507136

mutual

/-- `IsFastLiteralHelper` (source lines 550-613).  Returns `none` for
ineligible; `some remaining` returns the remaining shared count budget so
that the budget is threaded through the whole recursion exactly as the
source's `int* max_properties` is.  The `(*max_properties)-- == 0` test is
modelled as: fail when the budget is zero, otherwise continue with the
budget decremented by one. -/
def IsFastLiteralHelper : JSObjectB → Nat → Nat → Option Nat
  | .mk canMigrate elements hasFastProperties propertyArrayLength descriptors,
      maxDepth, maxProperties =>
    if canMigrate = false then none
    else if maxDepth = 0 then none
    else
      match elementsPart elements maxDepth maxProperties with
      | none => none
      | some mp1 =>
        if (hasFastProperties && propertyArrayLength == 0) = false then none
        else descsPart descriptors maxDepth mp1

/-- The elements section of `IsFastLiteralHelper` (source lines 562-585):
walked only when the store is non-empty and its map is not the shared
copy-on-write map. -/
def elementsPart : ElementsB → Nat → Nat → Option Nat
  | .smiOrObject cow es, maxDepth, mp =>
    if 0 < es.length ∧ cow = false then elemsLoop es maxDepth mp else some mp
  | .doubles cow len size, _, mp =>
    if 0 < len ∧ cow = false then
      if size > kMaxRegularHeapObjectSize then none else some mp
    else some mp
  | .other cow len, _, mp =>
    if 0 < len ∧ cow = false then none else some mp

/-- The per-element loop over a smi-or-object backing store (source lines
567-579): one budget unit per element, recursing into object elements with
one less depth. -/
def elemsLoop : ElemList → Nat → Nat → Option Nat
  | .nil, _, mp => some mp
  | .consObj v rest, maxDepth, mp =>
    if mp = 0 then none
    else
      match IsFastLiteralHelper v (maxDepth - 1) (mp - 1) with
      | none => none
      | some mp2 => elemsLoop rest maxDepth mp2
  | .consPlain rest, maxDepth, mp =>
    if mp = 0 then none else elemsLoop rest maxDepth (mp - 1)

/-- The in-object property loop of `IsFastLiteralHelper` (source lines
593-611): non-field descriptors are skipped without cost; every data field
costs one budget unit (the decrement happens before the unboxed-double
test); object-valued fields are recursed into with one less depth. -/
def descsPart : DescList → Nat → Nat → Option Nat
  | .nil, _, mp => some mp
  | .consNonField rest, maxDepth, mp => descsPart rest maxDepth mp
  | .consUnboxedDouble rest, maxDepth, mp =>
    if mp = 0 then none else descsPart rest maxDepth (mp - 1)
  | .consPlainData rest, maxDepth, mp =>
    if mp = 0 then none else descsPart rest maxDepth (mp - 1)
  | .consObjData v rest, maxDepth, mp =>
    if mp = 0 then none
    else
      match IsFastLiteralHelper v (maxDepth - 1) (mp - 1) with
      | none => none
      | some mp2 => descsPart rest maxDepth mp2

end

/-- `AllocationSiteRef::IsFastLiteral` (source lines 628-638), taking the
boilerplate directly: runs the helper with the fixed depth and count
budgets. -/
def IsFastLiteral (boilerplate : JSObjectB) : Bool :=
  (IsFastLiteralHelper boilerplate kMaxFastLiteralDepth
      kMaxFastLiteralProperties).isSome

/-! ## Broker, identity cache and record model

Heap-object identity is the canonical handle address (`Handle::address()`),
modelled as a natural number.  C++ pointer identity of `ObjectData*` is
modelled by a per-broker allocation counter: every record receives a fresh
`id` at construction, so two records are the same instance iff their `id`s
are equal. -/

/-- Heap-object identity: the canonical handle address. -/
abbrev Addr := Nat

/-- The instance types relevant to this translation unit. -/
inductive InstanceType : Type where
  | MAP_TYPE
  | JS_FUNCTION_TYPE
  | SHARED_FUNCTION_INFO_TYPE
  | NATIVE_CONTEXT_TYPE
  | ODDBALL_TYPE
  | HEAP_NUMBER_TYPE
  | STRING_TYPE
  | FIXED_ARRAY_TYPE
  | JS_OBJECT_TYPE
  | CELL_TYPE
  deriving DecidableEq, Repr

/-- `OddballType` of a `HeapObjectType`. -/
inductive OddballType : Type where
  | kNone
  | kUndefined
  | kNull
  | kBoolean
  | kHole
  | kUninitialized
  | kOther
  deriving DecidableEq, Repr

/-- `HeapObjectType`: instance type, the undetectable/callable flags, and
the oddball sub-tag (source lines 263-291 compute it from a map). -/
structure HeapObjectType : Type where
  instance_type : InstanceType
  undetectable : Bool
  callable : Bool
  oddball_type : OddballType
  deriving DecidableEq, Repr

instance : Inhabited HeapObjectType :=
  ⟨⟨.JS_OBJECT_TYPE, false, false, .kNone⟩⟩

/-- The fields of a live heap object that this translation unit reads.
Every object carries every field (a field read at a wrong category is V8
type confusion; here it reads the stored value): `mapAddr` is the object's
map; `instance_type`/`is_undetectable`/`is_callable` are meaningful when
the object is a `Map` and describe that map's instances; `sharedAddr` is
meaningful for a `JSFunction`; `sloppyArgumentsMapAddr` for a native
context; `numValue` for a `HeapNumber` (its bit pattern, kept opaque);
`strLength` for a `String`. -/
structure HeapObjDesc : Type where
  mapAddr : Addr
  instance_type : InstanceType := .JS_OBJECT_TYPE
  is_undetectable : Bool := false
  is_callable : Bool := false
  sharedAddr : Addr := 0
  sloppyArgumentsMapAddr : Addr := 0
  numValue : Int := 0
  strLength : Nat := 0
  deriving DecidableEq, Repr

instance : Inhabited HeapObjDesc :=
  ⟨{ mapAddr := 0 }⟩

/-- A live heap value: a small immediate or a heap object. -/
inductive HeapVal : Type where
  | smi (n : Int)
  | obj (d : HeapObjDesc)
  deriving DecidableEq, Repr

/-- The read-only root maps this translation unit compares against
(`ReadOnlyRoots`). -/
structure Roots : Type where
  undefined_map : Addr
  null_map : Addr
  boolean_map : Addr
  the_hole_map : Addr
  uninitialized_map : Addr
  native_context_map : Addr

/-- The live heap side of the isolate: total map from identities to heap
values, plus the read-only roots. -/
structure Isolate : Type where
  heap : Addr → HeapVal
  roots : Roots

/-- `Object::IsSmi` on the live heap. -/
def Isolate.isSmi (iso : Isolate) (a : Addr) : Bool :=
  match iso.heap a with
  | .smi _ => true
  | .obj _ => false

/-- The heap-object descriptor at an identity (arbitrary for a smi: a C++
field read through a wrongly-typed pointer). -/
def Isolate.objDesc (iso : Isolate) (a : Addr) : HeapObjDesc :=
  match iso.heap a with
  | .obj d => d
  | .smi _ => default

/-- The instance type of a live object, read from its map. -/
def Isolate.liveInstanceType (iso : Isolate) (a : Addr) : InstanceType :=
  (iso.objDesc (iso.objDesc a).mapAddr).instance_type

/-- The broker-object categories used by the `Is`/`As` capability checks
(members of `HEAP_BROKER_OBJECT_LIST` that this development needs). -/
inductive BrokerObjectName : Type where
  | HeapObject
  | Map
  | JSFunction
  | SharedFunctionInfo
  | NativeContext
  | HeapNumber
  | String
  | FixedArray
  | Cell
  deriving DecidableEq, Repr

/-- `InstanceTypeChecker::IsX` on an instance type. -/
def InstanceTypeChecker.Is : BrokerObjectName → InstanceType → Bool
  | .HeapObject, _ => true
  | .Map, t => t == .MAP_TYPE
  | .JSFunction, t => t == .JS_FUNCTION_TYPE
  | .SharedFunctionInfo, t => t == .SHARED_FUNCTION_INFO_TYPE
  | .NativeContext, t => t == .NATIVE_CONTEXT_TYPE
  | .HeapNumber, t => t == .HEAP_NUMBER_TYPE
  | .String, t => t == .STRING_TYPE
  | .FixedArray, t => t == .FIXED_ARRAY_TYPE
  | .Cell, t => t == .CELL_TYPE

/-- `object->IsX()` asked of the live object.  `IsNativeContext` compares
the object's map against the `native_context_map` root; the others check
the instance type stored on the object's map. -/
def Object.IsLive (iso : Isolate) (n : BrokerObjectName) (a : Addr) : Bool :=
  match n with
  | .HeapObject => !iso.isSmi a
  | .NativeContext =>
    !iso.isSmi a && ((iso.objDesc a).mapAddr == iso.roots.native_context_map)
  | _ => !iso.isSmi a && InstanceTypeChecker.Is n (iso.liveInstanceType a)

/-- The broker mode (`JSHeapBroker::kDisabled/kSerializing/kSerialized`). -/
inductive BrokerMode : Type where
  | kDisabled
  | kSerializing
  | kSerialized
  deriving DecidableEq, Repr

/-- Which C++ record class was allocated for a cache entry. -/
inductive RecordKind : Type where
  | objectData
  | heapObjectData
  | jsFunctionData
  | nativeContextData
  deriving DecidableEq, Repr

/-- An `ObjectData` record.  `id` is the allocation serial number standing
in for the C++ pointer; `object` is the handle identity; `type` is the
`HeapObjectData` type descriptor (`none` for a plain `ObjectData`); `map`,
`shared` and `sloppy_arguments_map` hold the `id` of the dependent record
once the corresponding constructor phase has resolved it. -/
structure ObjectData : Type where
  id : Nat
  object : Addr
  is_smi : Bool
  kind : RecordKind
  type : Option HeapObjectType := none
  map : Option Nat := none
  shared : Option Nat := none
  sloppy_arguments_map : Option Nat := none
  deriving DecidableEq, Repr

instance : Inhabited ObjectData :=
  ⟨{ id := 0, object := 0, is_smi := false, kind := .objectData }⟩

/-- `JSHeapBroker`: the mode, the `strict_heap_broker` flag (a process
flag, constant for the broker's lifetime), the identity cache `refs_`
(association list keyed by handle identity), and the allocation counter
modelling arena pointers. -/
structure JSHeapBroker : Type where
  mode : BrokerMode
  flag_strict_heap_broker : Bool
  refs : List (Addr × ObjectData)
  nextId : Nat
  deriving DecidableEq, Repr

/-- Result of a broker operation: `fatal` models a failed `CHECK` (the
process aborts), `outOfFuel` is the artifact of bounding the
serialization recursion by fuel, and `ok` is success. -/
inductive BRes (α : Type) : Type where
  | fatal
  | outOfFuel
  | ok (val : α)
  deriving DecidableEq, Repr

/-- First-match association-list lookup (`refs_.find`). -/
def lookupRef : List (Addr × ObjectData) → Addr → Option ObjectData
  | [], _ => none
  | (b, x) :: rest, a => if b = a then some x else lookupRef rest a

/-- Overwrite the first entry with the given key (a field write through the
cached `ObjectData*`). -/
def setEntry : List (Addr × ObjectData) → Addr → ObjectData → List (Addr × ObjectData)
  | [], _, _ => []
  | (b, x) :: rest, a, d => if b = a then (b, d) :: rest else (b, x) :: setEntry rest a d

/-- `JSHeapBroker::GetData` (source lines 293-296): pure cache lookup. -/
def JSHeapBroker.GetData (st : JSHeapBroker) (a : Addr) : Option ObjectData :=
  lookupRef st.refs a

/-- `JSHeapBroker::SerializingAllowed` (source lines 235-238). -/
def JSHeapBroker.SerializingAllowed (st : JSHeapBroker) : Bool :=
  st.mode == .kSerializing ||
    (!st.flag_strict_heap_broker && st.mode == .kSerialized)

/-- `JSHeapBroker::AddData` (source lines 311-320): fatal if the identity
is already present (`CHECK(refs_.insert(...).second)`), else insert.  The
`canonical_scope` check is environmental and assumed satisfied. -/
def JSHeapBroker.AddData (st : JSHeapBroker) (a : Addr) (d : ObjectData) :
    BRes JSHeapBroker :=
  match st.GetData a with
  | some _ => .fatal
  | none => .ok { st with refs := st.refs ++ [(a, d)] }

/-- Write an updated record through its cache entry. -/
def JSHeapBroker.updateData (st : JSHeapBroker) (a : Addr) (d : ObjectData) :
    JSHeapBroker :=
  { st with refs := setEntry st.refs a d }

/-- The `ObjectData` base constructor (source lines 29-32): allocate a
fresh record and insert it into the owning broker's cache (`AddData`)
before any subclass field is resolved. -/
def ObjectData.create (st : JSHeapBroker) (a : Addr) (sm : Bool)
    (kind : RecordKind) (type : Option HeapObjectType) :
    BRes (ObjectData × JSHeapBroker) :=
  let d : ObjectData :=
    { id := st.nextId, object := a, is_smi := sm, kind := kind, type := type }
  match JSHeapBroker.AddData { st with nextId := st.nextId + 1 } a d with
  | .fatal => .fatal
  | .outOfFuel => .outOfFuel
  | .ok st1 => .ok (d, st1)

/-- `ObjectData::IsX` (source lines 133-143): in disabled mode ask the live
object under a scoped dereference permission; otherwise a smi is never an
X, and a heap record is checked against its cached type descriptor.
Reading the descriptor of a plain non-smi record is C++ type confusion and
yields the arbitrary default. -/
def ObjectData.Is (iso : Isolate) (st : JSHeapBroker) (n : BrokerObjectName)
    (d : ObjectData) : Bool :=
  if st.mode == .kDisabled then Object.IsLive iso n d.object
  else if d.is_smi then false
  else InstanceTypeChecker.Is n (d.type.getD default).instance_type

/-- `ObjectData::AsX` (source lines 144-148): `CHECK_NE(mode, kDisabled)`
then `CHECK(IsX())`; on success the cast returns the record itself. -/
def ObjectData.As (iso : Isolate) (st : JSHeapBroker) (n : BrokerObjectName)
    (d : ObjectData) : BRes ObjectData :=
  if st.mode == .kDisabled then .fatal
  else if d.Is iso st n then .ok d else .fatal

/-- `JSHeapBroker::HeapObjectTypeFromMap` (source lines 263-291). -/
def JSHeapBroker.HeapObjectTypeFromMap (iso : Isolate) (mapAddr : Addr) :
    HeapObjectType :=
  let m := iso.objDesc mapAddr
  let oddball : OddballType :=
    if m.instance_type = .ODDBALL_TYPE then
      if mapAddr = iso.roots.undefined_map then .kUndefined
      else if mapAddr = iso.roots.null_map then .kNull
      else if mapAddr = iso.roots.boolean_map then .kBoolean
      else if mapAddr = iso.roots.the_hole_map then .kHole
      else if mapAddr = iso.roots.uninitialized_map then .kUninitialized
      else .kOther
    else .kNone
  { instance_type := m.instance_type, undetectable := m.is_undetectable,
    callable := m.is_callable, oddball_type := oddball }

/-- The type of the recursive `GetOrCreateData` entry point, abstracted so
the constructors below can be stated once and instantiated with any fuel. -/
abbrev GocFun := JSHeapBroker → Addr → BRes (ObjectData × JSHeapBroker)

/-- The `HeapObjectData` constructor (source lines 53-61): base `ObjectData`
constructor (which inserts into the cache), the `type` member, then the
`map` member resolved by `GetOrCreateData(handle(object->map()))->AsMap()`,
then `CHECK_NOT_NULL(map)` (a successful `AsMap` is never null) and
`CHECK(SerializingAllowed())`. -/
def HeapObjectData.ctorWith (goc : GocFun) (iso : Isolate) (st : JSHeapBroker)
    (a : Addr) (type : HeapObjectType) (kind : RecordKind) :
    BRes (ObjectData × JSHeapBroker) :=
  match ObjectData.create st a false kind (some type) with
  | .fatal => .fatal
  | .outOfFuel => .outOfFuel
  | .ok (d, st1) =>
    match goc st1 (iso.objDesc a).mapAddr with
    | .fatal => .fatal
    | .outOfFuel => .outOfFuel
    | .ok (mref, st2) =>
      match ObjectData.As iso st2 .Map mref with
      | .fatal => .fatal
      | .outOfFuel => .outOfFuel
      | .ok md =>
        if st2.SerializingAllowed then
          let d2 := { d with map := some md.id }
          .ok (d2, st2.updateData a d2)
        else .fatal

/-- The `JSFunctionData` constructor (source lines 70-83): the
`HeapObjectData` phases, then the `shared` member resolved by
`GetOrCreateData(handle(object->shared()))->AsSharedFunctionInfo()` and
`CHECK_NOT_NULL(shared)`. -/
def JSFunctionData.ctorWith (goc : GocFun) (iso : Isolate) (st : JSHeapBroker)
    (a : Addr) (type : HeapObjectType) : BRes (ObjectData × JSHeapBroker) :=
  match HeapObjectData.ctorWith goc iso st a type .jsFunctionData with
  | .fatal => .fatal
  | .outOfFuel => .outOfFuel
  | .ok (d, st1) =>
    match goc st1 (iso.objDesc a).sharedAddr with
    | .fatal => .fatal
    | .outOfFuel => .outOfFuel
    | .ok (sref, st2) =>
      match ObjectData.As iso st2 .SharedFunctionInfo sref with
      | .fatal => .fatal
      | .outOfFuel => .outOfFuel
      | .ok sd =>
        let d2 := { d with shared := some sd.id }
        .ok (d2, st2.updateData a d2)

/-- The `NativeContextData` constructor (source lines 96-107): the
`HeapObjectData` phases, `CHECK(object->IsNativeContext())`,
`CHECK(SerializingAllowed())`, then the sloppy-arguments map resolved by
`GetOrCreateData(...)->AsMap()` and `CHECK_NOT_NULL`. -/
def NativeContextData.ctorWith (goc : GocFun) (iso : Isolate)
    (st : JSHeapBroker) (a : Addr) (type : HeapObjectType) :
    BRes (ObjectData × JSHeapBroker) :=
  match HeapObjectData.ctorWith goc iso st a type .nativeContextData with
  | .fatal => .fatal
  | .outOfFuel => .outOfFuel
  | .ok (d, st1) =>
    if !(Object.IsLive iso .NativeContext a) then .fatal
    else if !st1.SerializingAllowed then .fatal
    else
      match goc st1 (iso.objDesc a).sloppyArgumentsMapAddr with
      | .fatal => .fatal
      | .outOfFuel => .outOfFuel
      | .ok (mref, st2) =>
        match ObjectData.As iso st2 .Map mref with
        | .fatal => .fatal
        | .outOfFuel => .outOfFuel
        | .ok md =>
          let d2 := { d with sloppy_arguments_map := some md.id }
          .ok (d2, st2.updateData a d2)

/-- `HeapObjectData::Serialize` (source lines 159-176):
`CHECK(SerializingAllowed())`, compute the type from the live map, then
dispatch on the live category to the most specific constructor. -/
def HeapObjectData.serializeWith (goc : GocFun) (iso : Isolate)
    (st : JSHeapBroker) (a : Addr) : BRes (ObjectData × JSHeapBroker) :=
  if !st.SerializingAllowed then .fatal
  else
    let type := JSHeapBroker.HeapObjectTypeFromMap iso (iso.objDesc a).mapAddr
    if Object.IsLive iso .JSFunction a then
      JSFunctionData.ctorWith goc iso st a type
    else if Object.IsLive iso .NativeContext a then
      NativeContextData.ctorWith goc iso st a type
    else HeapObjectData.ctorWith goc iso st a type .heapObjectData

/-- `ObjectData::Serialize` (source lines 152-157):
`CHECK(SerializingAllowed())`, then a smi gets a plain `ObjectData` and a
heap object goes through `HeapObjectData::Serialize`. -/
def ObjectData.serializeWith (goc : GocFun) (iso : Isolate)
    (st : JSHeapBroker) (a : Addr) : BRes (ObjectData × JSHeapBroker) :=
  if !st.SerializingAllowed then .fatal
  else if iso.isSmi a then ObjectData.create st a true .objectData none
  else HeapObjectData.serializeWith goc iso st a

/-- `JSHeapBroker::GetOrCreateData` (source lines 298-309):
`CHECK(SerializingAllowed())`, cache lookup, serialize on miss.  The
recursion through dependent-record constructors is bounded by fuel;
running out of fuel is reported as `outOfFuel`, never as success or as a
fatal check. -/
def JSHeapBroker.GetOrCreateData (iso : Isolate) :
    Nat → JSHeapBroker → Addr → BRes (ObjectData × JSHeapBroker)
  | 0, _, _ => .outOfFuel
  | fuel + 1, st, a =>
    if !st.SerializingAllowed then .fatal
    else
      match st.GetData a with
      | some d => .ok (d, st)
      | none =>
        ObjectData.serializeWith (JSHeapBroker.GetOrCreateData iso fuel) iso st a

/-- `ObjectData::Serialize` at a given fuel. -/
def ObjectData.Serialize (iso : Isolate) (fuel : Nat) (st : JSHeapBroker)
    (a : Addr) : BRes (ObjectData × JSHeapBroker) :=
  ObjectData.serializeWith (JSHeapBroker.GetOrCreateData iso fuel) iso st a

/-- `HeapObjectData::Serialize` at a given fuel. -/
def HeapObjectData.Serialize (iso : Isolate) (fuel : Nat) (st : JSHeapBroker)
    (a : Addr) : BRes (ObjectData × JSHeapBroker) :=
  HeapObjectData.serializeWith (JSHeapBroker.GetOrCreateData iso fuel) iso st a

/-! ## The Ref facade -/

/-- `ObjectRef`: a handle wrapping the backing `ObjectData*`. -/
structure ObjectRef : Type where
  data_ : ObjectData
  deriving DecidableEq, Repr

instance : Inhabited ObjectRef := ⟨⟨default⟩⟩

/-- `ObjectRef::equals` (source lines 199-201): pointer equality of the
backing records. -/
def ObjectRef.equals (r1 r2 : ObjectRef) : Bool :=
  r1.data_.id == r2.data_.id

/-- The `ObjectRef(JSHeapBroker*, Handle<Object>)` constructor (source
lines 1123-1142): resolve the backing record according to mode, with
`CHECK_NOT_NULL(data_)` at the end (the strict-sealed cache miss is the
null case). -/
def ObjectRef.ctor (iso : Isolate) (fuel : Nat) (st : JSHeapBroker)
    (a : Addr) : BRes (ObjectRef × JSHeapBroker) :=
  match st.mode with
  | .kSerialized =>
    if st.flag_strict_heap_broker then
      match st.GetData a with
      | some d => .ok (⟨d⟩, st)
      | none => .fatal
    else
      match JSHeapBroker.GetOrCreateData iso fuel st a with
      | .fatal => .fatal
      | .outOfFuel => .outOfFuel
      | .ok (d, st1) => .ok (⟨d⟩, st1)
  | .kSerializing =>
    match JSHeapBroker.GetOrCreateData iso fuel st a with
    | .fatal => .fatal
    | .outOfFuel => .outOfFuel
    | .ok (d, st1) => .ok (⟨d⟩, st1)
  | .kDisabled =>
    match st.GetData a with
    | some d => .ok (⟨d⟩, st)
    | none =>
      match ObjectData.create st a (iso.isSmi a) .objectData none with
      | .fatal => .fatal
      | .outOfFuel => .outOfFuel
      | .ok (d, st1) => .ok (⟨d⟩, st1)

/-- Dereference a record pointer stored as an allocation id (arbitrary
default if dangling, which construction never produces). -/
def JSHeapBroker.findByIdD (st : JSHeapBroker) (i : Nat) : ObjectData :=
  match st.refs.find? (fun p => p.2.id == i) with
  | some p => p.2
  | none => default

/-- `HeapObjectRef::map` (source lines 178-187): in disabled mode read the
map from the live object under scoped permissions and wrap it in a fresh
Ref; otherwise return a Ref around the record's cached `map` edge
(`MapRef(data()->AsHeapObject()->map)`). -/
def HeapObjectRef.map (iso : Isolate) (fuel : Nat) (st : JSHeapBroker)
    (r : ObjectRef) : BRes (ObjectRef × JSHeapBroker) :=
  if st.mode == .kDisabled then
    ObjectRef.ctor iso fuel st (iso.objDesc r.data_.object).mapAddr
  else
    match ObjectData.As iso st .HeapObject r.data_ with
    | .fatal => .fatal
    | .outOfFuel => .outOfFuel
    | .ok hd =>
      match hd.map with
      | some mid => .ok (⟨st.findByIdD mid⟩, st)
      | none => .ok (⟨default⟩, st)

/-- `HeapNumberRef::value` (source lines 189-192): always reads the live
object under `AllowHandleDereference`, in every mode. -/
def HeapNumberRef.value (iso : Isolate) (r : ObjectRef) : Int :=
  (iso.objDesc r.data_.object).numValue

/-- `StringRef::length` (source lines 795-798): always reads the live
object under `AllowHandleDereference`, in every mode. -/
def StringRef.length (iso : Isolate) (r : ObjectRef) : Nat :=
  (iso.objDesc r.data_.object).strLength

/-! ## Postcondition of record creation -/

/-- What a successful record-producing operation rooted at identity `a`
guarantees: every earlier cache entry survives unchanged, the produced
record is cached at `a`, and the mode and strictness flag are untouched. -/
def GocPost (st : JSHeapBroker) (a : Addr) (d : ObjectData)
    (st2 : JSHeapBroker) : Prop :=
  (∀ b x, st.GetData b = some x → st2.GetData b = some x) ∧
  st2.GetData a = some d ∧
  st2.mode = st.mode ∧
  st2.flag_strict_heap_broker = st.flag_strict_heap_broker

/-- A resolver function satisfying `GocPost` on every success. -/
def GocOK (goc : GocFun) : Prop :=
  ∀ st a d st2, goc st a = .ok (d, st2) → GocPost st a d st2

/-- One observable broker transition: some successful `GetOrCreateData`
call (any fuel, any identity). -/
def BrokerStepR (iso : Isolate) (st st2 : JSHeapBroker) : Prop :=
  ∃ fuel a d, JSHeapBroker.GetOrCreateData iso fuel st a = .ok (d, st2)

/-- Reachability by a sequence of successful `GetOrCreateData` calls. -/
def BrokerReach (iso : Isolate) : JSHeapBroker → JSHeapBroker → Prop :=
  Relation.ReflTransGen (BrokerStepR iso)

/-! ## Families of boilerplate objects used by the fast-literal claims -/

/-- `k` data-field descriptors holding non-object values. -/
def DescList.replicatePlain : Nat → DescList
  | 0 => .nil
  | k + 1 => .consPlainData (DescList.replicatePlain k)

/-- `k` non-object elements. -/
def ElemList.replicatePlain : Nat → ElemList
  | 0 => .nil
  | k + 1 => .consPlain (ElemList.replicatePlain k)

/-- An empty, non-copy-on-write elements store. -/
def emptyElems : ElementsB := .smiOrObject false .nil

/-- A migratable fast object with `k` inline non-object data properties
and no elements. -/
def mkFlat (k : Nat) : JSObjectB :=
  .mk true emptyElems true 0 (DescList.replicatePlain k)

/-- A chain of `k + 1` objects, each holding the next as its single
inline data property: `nestObj k` has nesting depth `k + 1`. -/
def nestObj : Nat → JSObjectB
  | 0 => mkFlat 0
  | k + 1 => .mk true emptyElems true 0 (.consObjData (nestObj k) .nil)

/-! ## Concrete isolates, brokers and records used by the witnesses -/

/-- Arbitrary distinct root-map addresses. -/
def rootsDefault : Roots := ⟨100, 101, 102, 103, 104, 105⟩

/-- An isolate whose heap holds the smi `7` at every identity. -/
def iso0 : Isolate := ⟨fun _ => .smi 7, rootsDefault⟩

/-- A fresh broker in serializing (Building) mode, lenient flag. -/
def st0 : JSHeapBroker := ⟨.kSerializing, false, [], 0⟩

/-- A fresh broker in disabled (live-access) mode. -/
def stDis : JSHeapBroker := ⟨.kDisabled, false, [], 0⟩

/-- The smi record `GetOrCreateData` creates for identity `0` on `st0`. -/
def d0C1 : ObjectData :=
  { id := 0, object := 0, is_smi := true, kind := .objectData }

/-- The broker state after serializing identity `0` on `st0`. -/
def st1C1 : JSHeapBroker := ⟨.kSerializing, false, [(0, d0C1)], 1⟩

/-- The smi record created for identity `1` on `st0`. -/
def d1C3 : ObjectData :=
  { id := 0, object := 1, is_smi := true, kind := .objectData }

/-- The smi record created for identity `2` afterwards: same content as
`d1C3`, different instance. -/
def d2C3 : ObjectData :=
  { id := 1, object := 2, is_smi := true, kind := .objectData }

/-- Broker state after serializing identity `1`. -/
def st1C3 : JSHeapBroker := ⟨.kSerializing, false, [(1, d1C3)], 1⟩

/-- Broker state after serializing identities `1` and `2`. -/
def st2C3 : JSHeapBroker :=
  ⟨.kSerializing, false, [(1, d1C3), (2, d2C3)], 2⟩

/-- A small live heap: `11` is the meta-map (its own map, instance type
`MAP_TYPE`), `12` a map of functions, `13` a map of shared-function-info
objects, `3` a shared-function-info, `2` a function whose shared metadata
is `3`; everything else is a smi. -/
def isoH : Isolate :=
  ⟨fun a =>
    if a = 11 then .obj { mapAddr := 11, instance_type := .MAP_TYPE }
    else if a = 12 then
      .obj { mapAddr := 11, instance_type := .JS_FUNCTION_TYPE }
    else if a = 13 then
      .obj { mapAddr := 11, instance_type := .SHARED_FUNCTION_INFO_TYPE }
    else if a = 3 then .obj { mapAddr := 13 }
    else if a = 2 then .obj { mapAddr := 12, sharedAddr := 3 }
    else .smi 0,
   rootsDefault⟩

/-- A record for the live map at identity `11` of `isoH`. -/
def dM : ObjectData :=
  { id := 0, object := 11, is_smi := false, kind := .heapObjectData,
    type := some ⟨.MAP_TYPE, false, false, .kNone⟩ }

/-- A cached string record at identity `5`. -/
def dStr : ObjectData :=
  { id := 0, object := 5, is_smi := false, kind := .heapObjectData,
    type := some ⟨.STRING_TYPE, false, false, .kNone⟩ }

/-- A Building-mode broker holding `dStr` in its snapshot. -/
def stStr : JSHeapBroker := ⟨.kSerializing, false, [(5, dStr)], 1⟩

/-- A live heap where the string at `5` has length `1`. -/
def isoStrA : Isolate :=
  ⟨fun a => if a = 5 then .obj { mapAddr := 20, strLength := 1 } else .smi 0,
   rootsDefault⟩

/-- The same heap except the string at `5` has length `2`. -/
def isoStrB : Isolate :=
  ⟨fun a => if a = 5 then .obj { mapAddr := 20, strLength := 2 } else .smi 0,
   rootsDefault⟩

/-- The record produced by serializing the meta-map `11` of `isoH`. -/
def dMapH : ObjectData :=
  { id := 0, object := 11, is_smi := false, kind := .heapObjectData,
    type := some ⟨.MAP_TYPE, false, false, .kNone⟩, map := some 0 }

/-- Broker state after serializing the meta-map `11` of `isoH`. -/
def stMapH : JSHeapBroker := ⟨.kSerializing, false, [(11, dMapH)], 1⟩

/-- The function record produced by serializing identity `2` of `isoH`. -/
def dFunH : ObjectData :=
  { id := 0, object := 2, is_smi := false, kind := .jsFunctionData,
    type := some ⟨.JS_FUNCTION_TYPE, false, false, .kNone⟩, map := some 1,
    shared := some 3 }

/-- The record for the function map `12` of `isoH`. -/
def dFunMapH : ObjectData :=
  { id := 1, object := 12, is_smi := false, kind := .heapObjectData,
    type := some ⟨.MAP_TYPE, false, false, .kNone⟩, map := some 2 }

/-- The record for the meta-map `11` of `isoH`, created during the
serialization of the function at `2`. -/
def dMetaH : ObjectData :=
  { id := 2, object := 11, is_smi := false, kind := .heapObjectData,
    type := some ⟨.MAP_TYPE, false, false, .kNone⟩, map := some 2 }

/-- The record for the shared-function-info at `3` of `isoH`. -/
def dSfiH : ObjectData :=
  { id := 3, object := 3, is_smi := false, kind := .heapObjectData,
    type := some ⟨.SHARED_FUNCTION_INFO_TYPE, false, false, .kNone⟩,
    map := some 4 }

/-- The record for the shared-function-info map `13` of `isoH`. -/
def dSfiMapH : ObjectData :=
  { id := 4, object := 13, is_smi := false, kind := .heapObjectData,
    type := some ⟨.MAP_TYPE, false, false, .kNone⟩, map := some 2 }

/-- Broker state after serializing the function at `2` of `isoH`. -/
def stFunH : JSHeapBroker :=
  ⟨.kSerializing, false,
   [(2, dFunH), (12, dFunMapH), (11, dMetaH), (3, dSfiH), (13, dSfiMapH)], 5⟩

/-! ## Cache lemmas -/

theorem lookupRef_append_some {l : List (Addr × ObjectData)} {a : Addr}
    {x : ObjectData} (tail : List (Addr × ObjectData))
    (h : lookupRef l a = some x) : lookupRef (l ++ tail) a = some x := by
  induction l with
  | nil => simp [lookupRef] at h
  | cons p rest ih =>
    obtain ⟨b, y⟩ := p
    simp only [lookupRef, List.cons_append] at h ⊢
    by_cases hb : b = a
    · rw [if_pos hb] at h ⊢
      exact h
    · rw [if_neg hb] at h ⊢
      exact ih h

theorem lookupRef_append_self {l : List (Addr × ObjectData)} {a : Addr}
    (d : ObjectData) (h : lookupRef l a = none) :
    lookupRef (l ++ [(a, d)]) a = some d := by
  induction l with
  | nil => simp [lookupRef]
  | cons p rest ih =>
    obtain ⟨b, y⟩ := p
    simp only [lookupRef, List.cons_append] at h ⊢
    by_cases hb : b = a
    · rw [if_pos hb] at h
      exact absurd h (by simp)
    · rw [if_neg hb] at h ⊢
      exact ih h

theorem lookupRef_setEntry_self {l : List (Addr × ObjectData)} {a : Addr}
    {x : ObjectData} (d : ObjectData) (h : lookupRef l a = some x) :
    lookupRef (setEntry l a d) a = some d := by
  induction l with
  | nil => simp [lookupRef] at h
  | cons p rest ih =>
    obtain ⟨b, y⟩ := p
    simp only [lookupRef, setEntry] at h ⊢
    by_cases hb : b = a
    · rw [if_pos hb]
      simp [lookupRef, if_pos hb]
    · rw [if_neg hb] at h ⊢
      simp only [lookupRef, if_neg hb]
      exact ih h

theorem lookupRef_setEntry_ne {l : List (Addr × ObjectData)} {a b : Addr}
    (d : ObjectData) (h : b ≠ a) :
    lookupRef (setEntry l a d) b = lookupRef l b := by
  induction l with
  | nil => simp [setEntry]
  | cons p rest ih =>
    obtain ⟨c, y⟩ := p
    simp only [setEntry, lookupRef]
    by_cases hc : c = a
    · subst hc
      simp only [if_pos rfl, lookupRef]
      rw [if_neg (fun hh => h hh.symm), if_neg (fun hh => h hh.symm)]
    · simp only [if_neg hc, lookupRef]
      split
      · rfl
      · exact ih

theorem getData_updateData_self {st : JSHeapBroker} {a : Addr}
    {x : ObjectData} (d : ObjectData) (h : st.GetData a = some x) :
    (st.updateData a d).GetData a = some d :=
  lookupRef_setEntry_self d h

theorem getData_updateData_ne {st : JSHeapBroker} {a b : Addr}
    (d : ObjectData) (h : b ≠ a) :
    (st.updateData a d).GetData b = st.GetData b :=
  lookupRef_setEntry_ne d h

theorem serializingAllowed_congr {st st2 : JSHeapBroker}
    (hm : st2.mode = st.mode)
    (hf : st2.flag_strict_heap_broker = st.flag_strict_heap_broker) :
    st2.SerializingAllowed = st.SerializingAllowed := by
  unfold JSHeapBroker.SerializingAllowed
  rw [hm, hf]

theorem create_spec {st : JSHeapBroker} {a : Addr} {sm : Bool}
    {kind : RecordKind} {type : Option HeapObjectType} {d : ObjectData}
    {st2 : JSHeapBroker}
    (h : ObjectData.create st a sm kind type = .ok (d, st2)) :
    st.GetData a = none ∧
    d = { id := st.nextId, object := a, is_smi := sm, kind := kind,
          type := type } ∧
    st2 = { st with nextId := st.nextId + 1, refs := st.refs ++ [(a, d)] } := by
  unfold ObjectData.create JSHeapBroker.AddData JSHeapBroker.GetData at h
  cases hg : lookupRef st.refs a with
  | some y => rw [hg] at h; simp at h
  | none =>
    rw [hg] at h
    try dsimp only at h
    simp only [BRes.ok.injEq, Prod.mk.injEq] at h
    obtain ⟨hd, hst⟩ := h
    exact ⟨hg, hd.symm, by rw [← hst, ← hd]⟩

theorem create_post {st : JSHeapBroker} {a : Addr} {sm : Bool}
    {kind : RecordKind} {type : Option HeapObjectType} {d : ObjectData}
    {st2 : JSHeapBroker}
    (h : ObjectData.create st a sm kind type = .ok (d, st2)) :
    GocPost st a d st2 ∧ st.GetData a = none := by
  obtain ⟨hnone, hd, hst⟩ := create_spec h
  subst hst
  refine ⟨⟨?_, ?_, rfl, rfl⟩, hnone⟩
  · intro b x hbx
    exact lookupRef_append_some _ hbx
  · exact lookupRef_append_self d hnone

theorem as_ok {iso : Isolate} {st : JSHeapBroker} {n : BrokerObjectName}
    {d x : ObjectData} (h : ObjectData.As iso st n d = .ok x) :
    x = d ∧ (st.mode == .kDisabled) = false ∧ d.Is iso st n = true := by
  unfold ObjectData.As at h
  split at h
  · simp at h
  · split at h
    · simp only [BRes.ok.injEq] at h
      exact ⟨h.symm, by simp_all, by assumption⟩
    · simp at h

theorem ctorWith_spec {goc : GocFun} {iso : Isolate} {st : JSHeapBroker}
    {a : Addr} {type : HeapObjectType} {kind : RecordKind} {d : ObjectData}
    {st2 : JSHeapBroker} (H : GocOK goc)
    (h : HeapObjectData.ctorWith goc iso st a type kind = .ok (d, st2)) :
    GocPost st a d st2 ∧ st.GetData a = none ∧
    d.kind = kind ∧ d.map.isSome ∧ d.shared = none ∧ d.object = a ∧
    d.is_smi = false ∧ d.type = some type := by
  unfold HeapObjectData.ctorWith at h
  cases hc : ObjectData.create st a false kind (some type) with
  | fatal => rw [hc] at h; simp at h
  | outOfFuel => rw [hc] at h; simp at h
  | ok p =>
    obtain ⟨d0, st1⟩ := p
    rw [hc] at h
    try dsimp only at h
    obtain ⟨⟨hpres0, hself0, hmode0, hflag0⟩, hnone⟩ := create_post hc
    obtain ⟨-, hd0, -⟩ := create_spec hc
    cases hg : goc st1 (iso.objDesc a).mapAddr with
    | fatal => rw [hg] at h; simp at h
    | outOfFuel => rw [hg] at h; simp at h
    | ok q =>
      obtain ⟨mref, st3⟩ := q
      rw [hg] at h
      try dsimp only at h
      obtain ⟨hpres1, hself1, hmode1, hflag1⟩ := H _ _ _ _ hg
      cases ha : ObjectData.As iso st3 .Map mref with
      | fatal => rw [ha] at h; simp at h
      | outOfFuel => rw [ha] at h; simp at h
      | ok md =>
        rw [ha] at h
        try dsimp only at h
        by_cases hsa : st3.SerializingAllowed
        · rw [if_pos hsa] at h
          simp only [BRes.ok.injEq, Prod.mk.injEq] at h
          obtain ⟨hde, hst2⟩ := h
          subst hde
          subst hst2
          have hbne : ∀ b x, st.GetData b = some x → b ≠ a := by
            intro b x hbx hba
            rw [hba, hnone] at hbx
            exact absurd hbx (by simp)
          refine ⟨⟨?_, ?_, ?_, ?_⟩, hnone, ?_, ?_, ?_, ?_, ?_, ?_⟩
          · intro b x hbx
            rw [getData_updateData_ne _ (hbne b x hbx)]
            exact hpres1 b x (hpres0 b x hbx)
          · exact getData_updateData_self _ (hpres1 a d0 hself0)
          · rw [show (st3.updateData a _).mode = st3.mode from rfl, hmode1,
              hmode0]
          · rw [show (st3.updateData a _).flag_strict_heap_broker =
                st3.flag_strict_heap_broker from rfl, hflag1, hflag0]
          · rw [hd0]
          · simp
          · rw [hd0]
          · rw [hd0]
          · rw [hd0]
          · rw [hd0]
        · rw [if_neg hsa] at h
          simp at h

theorem jsFunCtor_spec {goc : GocFun} {iso : Isolate} {st : JSHeapBroker}
    {a : Addr} {type : HeapObjectType} {d : ObjectData}
    {st2 : JSHeapBroker} (H : GocOK goc)
    (h : JSFunctionData.ctorWith goc iso st a type = .ok (d, st2)) :
    GocPost st a d st2 ∧ st.GetData a = none ∧
    d.kind = .jsFunctionData ∧ d.map.isSome ∧ d.shared.isSome := by
  unfold JSFunctionData.ctorWith at h
  cases hc : HeapObjectData.ctorWith goc iso st a type .jsFunctionData with
  | fatal => rw [hc] at h; simp at h
  | outOfFuel => rw [hc] at h; simp at h
  | ok p =>
    obtain ⟨d1, st1⟩ := p
    rw [hc] at h
    try dsimp only at h
    obtain ⟨⟨hpres0, hself0, hmode0, hflag0⟩, hnone, hkind, hmap, -, -, -, -⟩ :=
      ctorWith_spec H hc
    cases hg : goc st1 (iso.objDesc a).sharedAddr with
    | fatal => rw [hg] at h; simp at h
    | outOfFuel => rw [hg] at h; simp at h
    | ok q =>
      obtain ⟨sref, st3⟩ := q
      rw [hg] at h
      try dsimp only at h
      obtain ⟨hpres1, hself1, hmode1, hflag1⟩ := H _ _ _ _ hg
      cases ha : ObjectData.As iso st3 .SharedFunctionInfo sref with
      | fatal => rw [ha] at h; simp at h
      | outOfFuel => rw [ha] at h; simp at h
      | ok sd =>
        rw [ha] at h
        try dsimp only at h
        simp only [BRes.ok.injEq, Prod.mk.injEq] at h
        obtain ⟨hde, hst2⟩ := h
        subst hde
        subst hst2
        have hbne : ∀ b x, st.GetData b = some x → b ≠ a := by
          intro b x hbx hba
          rw [hba, hnone] at hbx
          exact absurd hbx (by simp)
        refine ⟨⟨?_, ?_, ?_, ?_⟩, hnone, ?_, ?_, ?_⟩
        · intro b x hbx
          rw [getData_updateData_ne _ (hbne b x hbx)]
          exact hpres1 b x (hpres0 b x hbx)
        · exact getData_updateData_self _ (hpres1 a d1 hself0)
        · rw [show (st3.updateData a _).mode = st3.mode from rfl, hmode1,
            hmode0]
        · rw [show (st3.updateData a _).flag_strict_heap_broker =
              st3.flag_strict_heap_broker from rfl, hflag1, hflag0]
        · exact hkind
        · exact hmap
        · simp

theorem ncCtor_spec {goc : GocFun} {iso : Isolate} {st : JSHeapBroker}
    {a : Addr} {type : HeapObjectType} {d : ObjectData}
    {st2 : JSHeapBroker} (H : GocOK goc)
    (h : NativeContextData.ctorWith goc iso st a type = .ok (d, st2)) :
    GocPost st a d st2 ∧ st.GetData a = none ∧
    d.kind = .nativeContextData ∧ d.map.isSome ∧
    d.sloppy_arguments_map.isSome := by
  unfold NativeContextData.ctorWith at h
  cases hc : HeapObjectData.ctorWith goc iso st a type .nativeContextData with
  | fatal => rw [hc] at h; simp at h
  | outOfFuel => rw [hc] at h; simp at h
  | ok p =>
    obtain ⟨d1, st1⟩ := p
    rw [hc] at h
    try dsimp only at h
    obtain ⟨⟨hpres0, hself0, hmode0, hflag0⟩, hnone, hkind, hmap, -, -, -, -⟩ :=
      ctorWith_spec H hc
    by_cases hnc : Object.IsLive iso .NativeContext a
    · rw [hnc] at h
      simp only [Bool.not_true, Bool.false_eq_true, if_false] at h
      by_cases hsa : st1.SerializingAllowed
      · rw [hsa] at h
        simp only [Bool.not_true, Bool.false_eq_true, if_false] at h
        cases hg : goc st1 (iso.objDesc a).sloppyArgumentsMapAddr with
        | fatal => rw [hg] at h; simp at h
        | outOfFuel => rw [hg] at h; simp at h
        | ok q =>
          obtain ⟨mref, st3⟩ := q
          rw [hg] at h
          try dsimp only at h
          obtain ⟨hpres1, hself1, hmode1, hflag1⟩ := H _ _ _ _ hg
          cases ha : ObjectData.As iso st3 .Map mref with
          | fatal => rw [ha] at h; simp at h
          | outOfFuel => rw [ha] at h; simp at h
          | ok md =>
            rw [ha] at h
            try dsimp only at h
            simp only [BRes.ok.injEq, Prod.mk.injEq] at h
            obtain ⟨hde, hst2⟩ := h
            subst hde
            subst hst2
            have hbne : ∀ b x, st.GetData b = some x → b ≠ a := by
              intro b x hbx hba
              rw [hba, hnone] at hbx
              exact absurd hbx (by simp)
            refine ⟨⟨?_, ?_, ?_, ?_⟩, hnone, ?_, ?_, ?_⟩
            · intro b x hbx
              rw [getData_updateData_ne _ (hbne b x hbx)]
              exact hpres1 b x (hpres0 b x hbx)
            · exact getData_updateData_self _ (hpres1 a d1 hself0)
            · rw [show (st3.updateData a _).mode = st3.mode from rfl, hmode1,
                hmode0]
            · rw [show (st3.updateData a _).flag_strict_heap_broker =
                  st3.flag_strict_heap_broker from rfl, hflag1, hflag0]
            · exact hkind
            · exact hmap
            · simp
      · rw [Bool.not_eq_true] at hsa
        rw [hsa] at h
        try dsimp only at h
        simp at h
    · rw [Bool.not_eq_true] at hnc
      rw [hnc] at h
      try dsimp only at h
      simp at h

theorem heapSerializeWith_spec {goc : GocFun} {iso : Isolate}
    {st : JSHeapBroker} {a : Addr} {d : ObjectData} {st2 : JSHeapBroker}
    (H : GocOK goc)
    (h : HeapObjectData.serializeWith goc iso st a = .ok (d, st2)) :
    GocPost st a d st2 ∧ d.map.isSome ∧
    (d.kind = .jsFunctionData → d.shared.isSome) := by
  unfold HeapObjectData.serializeWith at h
  by_cases hsa : st.SerializingAllowed
  · rw [hsa] at h
    simp only [Bool.not_true, Bool.false_eq_true, if_false] at h
    by_cases hjf : Object.IsLive iso .JSFunction a
    · rw [hjf] at h
      simp only [if_true] at h
      obtain ⟨hp, -, -, hm, hs⟩ := jsFunCtor_spec H h
      exact ⟨hp, hm, fun _ => hs⟩
    · rw [Bool.not_eq_true] at hjf
      rw [hjf] at h
      try dsimp only at h
      simp only [Bool.false_eq_true, if_false] at h
      by_cases hnc : Object.IsLive iso .NativeContext a
      · rw [hnc] at h
        simp only [if_true] at h
        obtain ⟨hp, -, hk, hm, -⟩ := ncCtor_spec H h
        refine ⟨hp, hm, fun hkk => ?_⟩
        rw [hk] at hkk
        exact absurd hkk (by simp)
      · rw [Bool.not_eq_true] at hnc
        rw [hnc] at h
        try dsimp only at h
        simp only [Bool.false_eq_true, if_false] at h
        obtain ⟨hp, -, hk, hm, hsh, -, -, -⟩ := ctorWith_spec H h
        refine ⟨hp, hm, fun hkk => ?_⟩
        rw [hk] at hkk
        exact absurd hkk (by simp)
  · rw [Bool.not_eq_true] at hsa
    rw [hsa] at h
    try dsimp only at h
    simp at h

theorem serializeWith_spec {goc : GocFun} {iso : Isolate} {st : JSHeapBroker}
    {a : Addr} {d : ObjectData} {st2 : JSHeapBroker} (H : GocOK goc)
    (h : ObjectData.serializeWith goc iso st a = .ok (d, st2)) :
    GocPost st a d st2 := by
  unfold ObjectData.serializeWith at h
  by_cases hsa : st.SerializingAllowed
  · rw [hsa] at h
    simp only [Bool.not_true, Bool.false_eq_true, if_false] at h
    by_cases hsm : iso.isSmi a
    · rw [hsm] at h
      simp only [if_true] at h
      exact (create_post h).1
    · rw [Bool.not_eq_true] at hsm
      rw [hsm] at h
      try dsimp only at h
      simp only [Bool.false_eq_true, if_false] at h
      exact (heapSerializeWith_spec H h).1
  · rw [Bool.not_eq_true] at hsa
    rw [hsa] at h
    try dsimp only at h
    simp at h

/-- Every successful `GetOrCreateData` call preserves earlier cache
entries, leaves the produced record cached at the requested identity, and
does not touch mode or flags (by induction on fuel through the recursive
constructors). -/
theorem goc_ok (iso : Isolate) :
    ∀ fuel, GocOK (JSHeapBroker.GetOrCreateData iso fuel) := by
  intro fuel
  induction fuel with
  | zero =>
    intro st a d st2 h
    simp [JSHeapBroker.GetOrCreateData] at h
  | succ n ih =>
    intro st a d st2 h
    unfold JSHeapBroker.GetOrCreateData at h
    by_cases hsa : st.SerializingAllowed
    · rw [hsa] at h
      simp only [Bool.not_true, Bool.false_eq_true, if_false] at h
      cases hg : st.GetData a with
      | some d0 =>
        rw [hg] at h
        try dsimp only at h
        simp only [BRes.ok.injEq, Prod.mk.injEq] at h
        obtain ⟨hde, hst2⟩ := h
        subst hde
        subst hst2
        exact ⟨fun b x hbx => hbx, hg, rfl, rfl⟩
      | none =>
        rw [hg] at h
        try dsimp only at h
        exact serializeWith_spec ih h
    · rw [Bool.not_eq_true] at hsa
      rw [hsa] at h
      try dsimp only at h
      simp at h

theorem goc_allowed {iso : Isolate} {fuel : Nat} {st : JSHeapBroker}
    {a : Addr} {d : ObjectData} {st2 : JSHeapBroker}
    (h : JSHeapBroker.GetOrCreateData iso fuel st a = .ok (d, st2)) :
    st.SerializingAllowed = true := by
  cases fuel with
  | zero => simp [JSHeapBroker.GetOrCreateData] at h
  | succ n =>
    unfold JSHeapBroker.GetOrCreateData at h
    by_cases hsa : st.SerializingAllowed
    · exact hsa
    · rw [Bool.not_eq_true] at hsa
      rw [hsa] at h
      simp at h

theorem goc_cached {iso : Isolate} {fuel : Nat} {st : JSHeapBroker}
    {a : Addr} {d : ObjectData} (hd : st.GetData a = some d)
    (hsa : st.SerializingAllowed = true) :
    JSHeapBroker.GetOrCreateData iso (fuel + 1) st a = .ok (d, st) := by
  unfold JSHeapBroker.GetOrCreateData
  rw [hsa, hd]
  simp

theorem reach_post {iso : Isolate} {st st2 : JSHeapBroker}
    (h : BrokerReach iso st st2) :
    (∀ b x, st.GetData b = some x → st2.GetData b = some x) ∧
    st2.mode = st.mode ∧
    st2.flag_strict_heap_broker = st.flag_strict_heap_broker := by
  induction h with
  | refl => exact ⟨fun b x hx => hx, rfl, rfl⟩
  | tail hr hstep ih =>
    obtain ⟨fuel, a, d, hgoc⟩ := hstep
    obtain ⟨hpres, hself, hmode, hflag⟩ := goc_ok iso fuel _ _ _ _ hgoc
    exact ⟨fun b x hx => hpres b x (ih.1 b x hx), hmode.trans ih.2.1,
      hflag.trans ih.2.2⟩

theorem as_iso_independent {iso iso2 : Isolate} {st : JSHeapBroker}
    {n : BrokerObjectName} {d : ObjectData}
    (hmb : (st.mode == .kDisabled) = false) :
    ObjectData.As iso st n d = ObjectData.As iso2 st n d := by
  unfold ObjectData.As ObjectData.Is
  rw [hmb]
  simp

/-! ## Fast-literal lemmas -/

theorem descsPart_replicatePlain (k : Nat) (d : Nat) (mp : Nat) :
    descsPart (DescList.replicatePlain k) d mp =
      if k ≤ mp then some (mp - k) else none := by
  induction k generalizing mp with
  | zero => simp [DescList.replicatePlain, descsPart]
  | succ n ih =>
    simp only [DescList.replicatePlain, descsPart]
    by_cases h0 : mp = 0
    · subst h0
      simp
    · rw [if_neg h0, ih]
      by_cases hle : n + 1 ≤ mp
      · rw [if_pos (by omega), if_pos hle]
        congr 1
        omega
      · rw [if_neg (by omega), if_neg hle]

theorem elemsLoop_replicatePlain (k : Nat) (d : Nat) (mp : Nat) :
    elemsLoop (ElemList.replicatePlain k) d mp =
      if k ≤ mp then some (mp - k) else none := by
  induction k generalizing mp with
  | zero => simp [ElemList.replicatePlain, elemsLoop]
  | succ n ih =>
    simp only [ElemList.replicatePlain, elemsLoop]
    by_cases h0 : mp = 0
    · subst h0
      simp
    · rw [if_neg h0, ih]
      by_cases hle : n + 1 ≤ mp
      · rw [if_pos (by omega), if_pos hle]
        congr 1
        omega
      · rw [if_neg (by omega), if_neg hle]

theorem isFastLiteralHelper_mkFlat (k : Nat) (d : Nat) (mp : Nat) :
    IsFastLiteralHelper (mkFlat k) (d + 1) mp =
      if k ≤ mp then some (mp - k) else none := by
  unfold mkFlat
  simp [IsFastLiteralHelper, emptyElems, elementsPart, ElemList.length,
    descsPart_replicatePlain]

theorem isFastLiteralHelper_depth_zero (bo : JSObjectB) (mp : Nat) :
    IsFastLiteralHelper bo 0 mp = none := by
  obtain ⟨cm, els, hf, pl, ds⟩ := bo
  cases cm <;> simp [IsFastLiteralHelper]

theorem isFastLiteralHelper_nestObj :
    ∀ d k mp, d ≤ k → IsFastLiteralHelper (nestObj k) d mp = none := by
  intro d
  induction d with
  | zero => intro k mp h; exact isFastLiteralHelper_depth_zero _ _
  | succ e ih =>
    intro k mp h
    obtain ⟨k2, rfl⟩ : ∃ k2, k = k2 + 1 := ⟨k - 1, by omega⟩
    simp only [nestObj, IsFastLiteralHelper, emptyElems, elementsPart,
      ElemList.length]
    by_cases h0 : mp = 0
    · simp [descsPart, h0]
    · simp [descsPart, h0, ih k2 (mp - 1) (by omega)]

/-! ## Claims -/

/-- Claim C1: for every broker and every heap-object identity, any
sequence of `GetOrCreateData` calls against that broker with that identity
all return the same `Record` instance: after a first successful call
returns `d`, every later call — across any interleaved successful
`GetOrCreateData` calls — returns the cached `d` and leaves the broker
unchanged. -/
theorem getOrCreateData_identity_uniqueness (iso : Isolate) (fuel : Nat)
    (st : JSHeapBroker) (a : Addr) (d : ObjectData) (st1 st2 : JSHeapBroker)
    (fuel2 : Nat)
    (h1 : JSHeapBroker.GetOrCreateData iso fuel st a = .ok (d, st1))
    (h2 : BrokerReach iso st1 st2) (hf : 0 < fuel2) :
    JSHeapBroker.GetOrCreateData iso fuel2 st2 a = .ok (d, st2) := by
  obtain ⟨hpres, hself, hmode, hflag⟩ := goc_ok iso fuel _ _ _ _ h1
  obtain ⟨hpres2, hmode2, hflag2⟩ := reach_post h2
  have hcached : st2.GetData a = some d := hpres2 a d hself
  have hsa : st2.SerializingAllowed = true := by
    rw [serializingAllowed_congr hmode2 hflag2,
      serializingAllowed_congr hmode hflag]
    exact goc_allowed h1
  obtain ⟨m, rfl⟩ : ∃ m, fuel2 = m + 1 := ⟨fuel2 - 1, by omega⟩
  exact goc_cached hcached hsa

theorem getOrCreateData_identity_uniqueness_witness :
    JSHeapBroker.GetOrCreateData iso0 1 st1C1 0 = .ok (d0C1, st1C1) :=
  getOrCreateData_identity_uniqueness iso0 1 st0 0 d0C1 st1C1 st1C1 1
    (by rfl) Relation.ReflTransGen.refl (by decide)

/-- Claim C2: `GetOrCreateData` in Sealed mode with the strict flag fails
fatally; in Building (serializing) mode a successful call leaves the
record cached under its identity, and on a not-yet-cached smi identity the
call always succeeds and caches the created record. -/
theorem getOrCreateData_mode_gating (iso : Isolate) (st : JSHeapBroker)
    (a : Addr) (fuel : Nat) :
    (st.mode = .kSerialized → st.flag_strict_heap_broker = true → 0 < fuel →
      JSHeapBroker.GetOrCreateData iso fuel st a = .fatal) ∧
    (∀ d st2, st.mode = .kSerializing →
      JSHeapBroker.GetOrCreateData iso fuel st a = .ok (d, st2) →
      st2.GetData a = some d) ∧
    (∀ n, st.mode = .kSerializing → iso.heap a = .smi n →
      st.GetData a = none → 0 < fuel →
      ∃ d st2, JSHeapBroker.GetOrCreateData iso fuel st a = .ok (d, st2) ∧
        st2.GetData a = some d) := by
  refine ⟨?_, ?_, ?_⟩
  · intro hm hf hfu
    obtain ⟨m, rfl⟩ : ∃ m, fuel = m + 1 := ⟨fuel - 1, by omega⟩
    have hsa : st.SerializingAllowed = false := by
      unfold JSHeapBroker.SerializingAllowed
      rw [hm, hf]
      rfl
    unfold JSHeapBroker.GetOrCreateData
    rw [hsa]
    rfl
  · intro d st2 hm h
    exact (goc_ok iso fuel st a d st2 h).2.1
  · intro n hm hsm hnone hfu
    obtain ⟨m, rfl⟩ : ∃ m, fuel = m + 1 := ⟨fuel - 1, by omega⟩
    have hsa : st.SerializingAllowed = true := by
      unfold JSHeapBroker.SerializingAllowed
      rw [hm]
      rfl
    have hsmi : iso.isSmi a = true := by
      unfold Isolate.isSmi
      rw [hsm]
    have hlook : lookupRef st.refs a = none := hnone
    have key : JSHeapBroker.GetOrCreateData iso (m + 1) st a =
        ObjectData.create st a true .objectData none := by
      unfold JSHeapBroker.GetOrCreateData ObjectData.serializeWith
      simp [hsa, hnone, hsmi]
    have hc : ∃ d st2,
        ObjectData.create st a true .objectData none = .ok (d, st2) := by
      unfold ObjectData.create JSHeapBroker.AddData JSHeapBroker.GetData
      rw [hlook]
      exact ⟨_, _, rfl⟩
    obtain ⟨d, st2, hc⟩ := hc
    refine ⟨d, st2, ?_, ?_⟩
    · rw [key]
      exact hc
    · exact (create_post hc).1.2.1

theorem getOrCreateData_mode_gating_witness :
    JSHeapBroker.GetOrCreateData iso0 1 ⟨.kSerialized, true, [], 0⟩ 5 =
      .fatal ∧
    st1C1.GetData 0 = some d0C1 ∧
    (∃ d st2, JSHeapBroker.GetOrCreateData iso0 1 st0 5 = .ok (d, st2) ∧
      st2.GetData 5 = some d) :=
  ⟨(getOrCreateData_mode_gating iso0 ⟨.kSerialized, true, [], 0⟩ 5 1).1
      rfl rfl (by decide),
   (getOrCreateData_mode_gating iso0 st0 0 1).2.1 d0C1 st1C1 rfl (by rfl),
   (getOrCreateData_mode_gating iso0 st0 5 1).2.2 7 rfl rfl rfl (by decide)⟩

/-- Claim C3: `ObjectRef::equals` is identity equality of the backing
records (the allocation serial standing in for the C++ pointer), never a
content comparison: two records created by the same broker for two
distinct identities whose live heap values and record contents coincide
still compare unequal. -/
theorem objectRef_equals_law :
    (∀ r1 r2 : ObjectRef,
      ObjectRef.equals r1 r2 = true ↔ r1.data_.id = r2.data_.id) ∧
    (JSHeapBroker.GetOrCreateData iso0 1 st0 1 = .ok (d1C3, st1C3) ∧
     JSHeapBroker.GetOrCreateData iso0 1 st1C3 2 = .ok (d2C3, st2C3) ∧
     iso0.heap 1 = iso0.heap 2 ∧
     d1C3.is_smi = d2C3.is_smi ∧ d1C3.type = d2C3.type ∧
     ObjectRef.equals ⟨d1C3⟩ ⟨d2C3⟩ = false) := by
  constructor
  · intro r1 r2
    unfold ObjectRef.equals
    exact beq_iff_eq
  · exact ⟨by rfl, by rfl, rfl, rfl, rfl, by decide⟩

theorem objectRef_equals_law_witness :
    ObjectRef.equals ⟨d1C3⟩ ⟨d2C3⟩ = true ↔ d1C3.id = d2C3.id :=
  objectRef_equals_law.1 ⟨d1C3⟩ ⟨d2C3⟩

/-- Claim C9: inserting a record under an identity already present in the
cache is fatal (`AddData`), and the `ObjectData` constructor — through
which every record is created — inserts the new record into the owning
broker's cache as part of construction. -/
theorem addData_duplicate_and_creation_caches (st : JSHeapBroker)
    (a : Addr) :
    (∀ d x, st.GetData a = some x → st.AddData a d = .fatal) ∧
    (∀ sm kind type d st2,
      ObjectData.create st a sm kind type = .ok (d, st2) →
      st2.GetData a = some d) := by
  constructor
  · intro d x hx
    unfold JSHeapBroker.AddData
    rw [hx]
  · intro sm kind type d st2 h
    exact (create_post h).1.2.1

theorem addData_duplicate_and_creation_caches_witness :
    st1C1.AddData 0 d1C3 = .fatal ∧ st1C1.GetData 0 = some d0C1 :=
  ⟨(addData_duplicate_and_creation_caches st1C1 0).1 d1C3 d0C1 (by rfl),
   (addData_duplicate_and_creation_caches st0 0).2 true .objectData none
     d0C1 st1C1 (by rfl)⟩

/-- Claim C10: the capability downcast `ObjectData::AsX` is fatal whenever
the broker is in disabled (live-access) mode — even though `IsX` in that
mode answers by asking the live object — and with a snapshot present it
succeeds exactly when the record is a non-smi whose cached type
descriptor's tag matches the requested category. -/
theorem objectData_as_capability (iso : Isolate) (st : JSHeapBroker)
    (n : BrokerObjectName) (d : ObjectData) :
    (st.mode = .kDisabled → ObjectData.As iso st n d = .fatal) ∧
    (st.mode = .kDisabled →
      ObjectData.Is iso st n d = Object.IsLive iso n d.object) ∧
    (st.mode ≠ .kDisabled →
      (ObjectData.As iso st n d = .ok d ↔
        (d.is_smi = false ∧
          InstanceTypeChecker.Is n (d.type.getD default).instance_type =
            true))) := by
  refine ⟨?_, ?_, ?_⟩
  · intro hm
    unfold ObjectData.As
    rw [hm]
    rfl
  · intro hm
    unfold ObjectData.Is
    rw [hm]
    rfl
  · intro hm
    have hmb : (st.mode == .kDisabled) = false := by
      cases hmm : st.mode
      · exact absurd hmm hm
      · rfl
      · rfl
    unfold ObjectData.As ObjectData.Is
    rw [hmb]
    by_cases hsm : d.is_smi
    · simp [hsm]
    · rw [Bool.not_eq_true] at hsm
      by_cases hck :
        InstanceTypeChecker.Is n (d.type.getD default).instance_type
      · simp [hsm, hck]
      · rw [Bool.not_eq_true] at hck
        simp [hsm, hck]

theorem objectData_as_capability_witness :
    ObjectData.As isoH stDis .Map dM = .fatal ∧
    ObjectData.Is isoH stDis .Map dM = Object.IsLive isoH .Map dM.object ∧
    Object.IsLive isoH .Map dM.object = true ∧
    (ObjectData.As isoH st0 .Map dM = .ok dM ↔
      (dM.is_smi = false ∧
        InstanceTypeChecker.Is .Map (dM.type.getD default).instance_type =
          true)) :=
  ⟨(objectData_as_capability isoH stDis .Map dM).1 rfl,
   (objectData_as_capability isoH stDis .Map dM).2.1 rfl,
   by decide,
   (objectData_as_capability isoH st0 .Map dM).2.2 (by decide)⟩

/-- Claim C4 counterexample: the claim says no typed accessor dereferences
the live heap once a snapshot exists, but `StringRef::length` always reads
the live object.  Concretely: a Building-mode broker whose snapshot caches
the string record `dStr` at identity `5`, and two live heaps that differ
only in the string's live length, give two different `length` results from
the same Ref — the accessor read the live heap despite the snapshot. -/
theorem stringRef_length_reads_live :
    stStr.mode = .kSerializing ∧
    stStr.GetData 5 = some dStr ∧
    StringRef.length isoStrA ⟨dStr⟩ = 1 ∧
    StringRef.length isoStrB ⟨dStr⟩ = 2 :=
  ⟨rfl, by rfl, by rfl, by rfl⟩

/-- Claim C4 (amended): mode-dispatching accessors such as
`HeapObjectRef::map` read the field from the cached record whenever a
snapshot exists (the result is independent of the live heap when the mode
is not `kDisabled`), while other typed accessors such as
`StringRef::length` and `HeapNumberRef::value` always read the live object
under a scoped dereference permission, in every mode. -/
theorem accessor_mode_resolution :
    (∀ iso iso2 : Isolate, ∀ fuel st r, st.mode ≠ .kDisabled →
      HeapObjectRef.map iso fuel st r = HeapObjectRef.map iso2 fuel st r) ∧
    (∀ iso r, StringRef.length iso r =
      (Isolate.objDesc iso r.data_.object).strLength) ∧
    (∀ iso r, HeapNumberRef.value iso r =
      (Isolate.objDesc iso r.data_.object).numValue) := by
  refine ⟨?_, fun iso r => rfl, fun iso r => rfl⟩
  intro iso iso2 fuel st r hm
  have hmb : (st.mode == .kDisabled) = false := by
    cases hmm : st.mode
    · exact absurd hmm hm
    · rfl
    · rfl
  unfold HeapObjectRef.map
  rw [hmb]
  rw [@as_iso_independent iso iso2 st BrokerObjectName.HeapObject r.data_ hmb]
  simp

theorem accessor_mode_resolution_witness :
    HeapObjectRef.map isoStrA 1 stStr ⟨dStr⟩ =
      HeapObjectRef.map isoStrB 1 stStr ⟨dStr⟩ :=
  accessor_mode_resolution.1 isoStrA isoStrB 1 stStr ⟨dStr⟩ (by decide)

/-- Claim C5: constructing any heap record (`HeapObjectData::Serialize`)
always yields a record whose shape (`map`) edge is resolved non-null, and
a function record (`JSFunctionData`) additionally has its shared-metadata
edge resolved non-null. -/
theorem heapObjectData_eager_edges (iso : Isolate) (fuel : Nat)
    (st : JSHeapBroker) (a : Addr) (d : ObjectData) (st2 : JSHeapBroker)
    (h : HeapObjectData.Serialize iso fuel st a = .ok (d, st2)) :
    d.map.isSome ∧ (d.kind = .jsFunctionData → d.shared.isSome) := by
  unfold HeapObjectData.Serialize at h
  obtain ⟨-, hm, hs⟩ := heapSerializeWith_spec (goc_ok iso fuel) h
  exact ⟨hm, hs⟩

theorem heapObjectData_eager_edges_witness :
    (dMapH.map.isSome ∧ (dMapH.kind = .jsFunctionData → dMapH.shared.isSome)) ∧
    (dFunH.map.isSome ∧ (dFunH.kind = .jsFunctionData → dFunH.shared.isSome)) :=
  ⟨heapObjectData_eager_edges isoH 10 st0 11 dMapH stMapH (by rfl),
   heapObjectData_eager_edges isoH 10 st0 2 dFunH stFunH (by rfl)⟩

/-- Claim C6: the eligibility analysis is ineligible once the depth budget
is exhausted — at depth `0` every object is ineligible regardless of its
contents, a chain nested deeper than the remaining depth is ineligible,
and in particular an object graph nested to `kMaxFastLiteralDepth + 1`
levels fails `IsFastLiteral`. -/
theorem fastLiteral_depth_bound :
    (∀ bo mp, IsFastLiteralHelper bo 0 mp = none) ∧
    (∀ d k mp, d ≤ k → IsFastLiteralHelper (nestObj k) d mp = none) ∧
    IsFastLiteral (nestObj kMaxFastLiteralDepth) = false := by
  refine ⟨fun bo mp => isFastLiteralHelper_depth_zero bo mp,
    fun d k mp h => isFastLiteralHelper_nestObj d k mp h, ?_⟩
  unfold IsFastLiteral
  rw [isFastLiteralHelper_nestObj _ _ _ (le_refl _)]
  rfl

theorem fastLiteral_depth_bound_witness :
    IsFastLiteralHelper (nestObj 3) 3 252 = none :=
  fastLiteral_depth_bound.2.1 3 3 252 (by decide)

/-- Claim C7: for objects whose properties are all inline data properties,
the analysis consumes exactly one unit of the shared count budget per
property and succeeds iff the property count fits the budget; with the
fixed budgets, exactly `kMaxFastLiteralProperties` properties are eligible
and one more is ineligible. -/
theorem fastLiteral_count_bound :
    (∀ k d mp, IsFastLiteralHelper (mkFlat k) (d + 1) mp =
      if k ≤ mp then some (mp - k) else none) ∧
    IsFastLiteral (mkFlat kMaxFastLiteralProperties) = true ∧
    IsFastLiteral (mkFlat (kMaxFastLiteralProperties + 1)) = false := by
  refine ⟨fun k d mp => isFastLiteralHelper_mkFlat k d mp, ?_, ?_⟩
  · unfold IsFastLiteral kMaxFastLiteralDepth
    rw [show (3 : Nat) = 2 + 1 from rfl, isFastLiteralHelper_mkFlat]
    simp
  · unfold IsFastLiteral kMaxFastLiteralDepth
    rw [show (3 : Nat) = 2 + 1 from rfl, isFastLiteralHelper_mkFlat]
    simp

theorem fastLiteral_count_bound_witness :
    IsFastLiteralHelper (mkFlat 2) 1 2 = some 0 := by
  rw [show (1 : Nat) = 0 + 1 from rfl, fastLiteral_count_bound.1 2 0 2]
  rfl

/-- Claim C8: element storage whose map is the shared copy-on-write map is
never walked: the elements section returns the budget unchanged for any
copy-on-write store, the whole analysis is unchanged when a copy-on-write
smi-or-object store's elements are replaced by none at all, and a
copy-on-write double store above the size ceiling is still eligible. -/
theorem fastLiteral_cow_skip :
    (∀ els d mp, ElementsB.isCow els = true →
      elementsPart els d mp = some mp) ∧
    (∀ cm es hf pl ds d mp,
      IsFastLiteralHelper (.mk cm (.smiOrObject true es) hf pl ds) d mp =
        IsFastLiteralHelper (.mk cm (.smiOrObject true .nil) hf pl ds) d mp) ∧
    IsFastLiteral
      (.mk true (.doubles true 5 (kMaxRegularHeapObjectSize + 1)) true 0
        .nil) = true := by
  refine ⟨?_, ?_, ?_⟩
  · intro els d mp hcow
    cases els <;> simp_all [ElementsB.isCow, elementsPart]
  · intro cm es hf pl ds d mp
    simp only [IsFastLiteralHelper]
    have h1 : elementsPart (.smiOrObject true es) d mp = some mp := by
      simp [elementsPart]
    have h2 : elementsPart (.smiOrObject true .nil) d mp = some mp := by
      simp [elementsPart]
    rw [h1, h2]
  · decide

theorem fastLiteral_cow_skip_witness :
    elementsPart (.smiOrObject true (.consObj (mkFlat 0) .nil)) 3 0 =
      some 0 :=
  fastLiteral_cow_skip.1 (.smiOrObject true (.consObj (mkFlat 0) .nil)) 3 0
    rfl

end JsHeapBrokerModel
